import Mathlib

/-!
# iphook: address resolution and the change-notification loop

A shallow embedding of `main.go`: the function `getAddress` (lines 113-174) and the
body of the endless `for` loop of `main` (lines 57-109), with the theorems that settle
the claims C1-C10 about them.

Conventions of the embedding.

* A Go `net.IP` is a byte slice that may be `nil`: `Option (List Byte)`, with `none` the
  nil slice.  `net.IP.Equal`, `net.IP.To4` and `net.IP.IsPrivate` follow the Go standard
  library.
* The routing facility (`netlink.RouteList`, `netlink.LinkByIndex`, `netlink.AddrList`)
  and the HTTP transport (`http.Get`) are answers of the outside world: they are passed
  in as functions, and the calls made are recorded in a trace.
* `url.ParseQuery`, `url.Values.Encode` and `net.IP.String` are library functions whose
  result is not inspected by the program: they are parameters (`Lib`).
* `log.Println` / `log.Printf` calls have no effect on the control flow or the state and
  are left out.
-/

namespace IPHook

/-! ## net.IP -/

/-- One byte of an address. -/
abbrev Byte := Fin 256

/-- Go `net.IP`: a byte slice, `none` being the nil slice. -/
abbrev IP := Option (List Byte)

/-- Go `len(ip)`; the nil slice has length 0. -/
def IP.len : IP → Nat
  | none => 0
  | some bs => bs.length

/-- The bytes of a slice; the nil slice has none. -/
def IP.bytes : IP → List Byte
  | none => []
  | some bs => bs

/-- Go `net.IPv4len`. -/
def IPv4len : Nat := 4

/-- Go `net.IPv6len`. -/
def IPv6len : Nat := 16

/-- Go `v4InV6Prefix`: the twelve bytes in front of an IPv4 address in 16-byte form. -/
def v4InV6Prefix : List Byte := [0, 0, 0, 0, 0, 0, 0, 0, 0, 0, 0xff, 0xff]

/-- Go `net.IP.Equal`: same length and same bytes, or one is the 16-byte form of the
4-byte other. In the standard library:
`if len(ip) == len(x) then bytealg.Equal(ip, x)`;
`if len(ip) == IPv4len && len(x) == IPv6len then
 bytealg.Equal(x[0:12], v4InV6Prefix) && bytealg.Equal(ip, x[12:])`;
`if len(ip) == IPv6len && len(x) == IPv4len then
 bytealg.Equal(ip[0:12], v4InV6Prefix) && bytealg.Equal(ip[12:], x)`; else `false`. -/
def IP.Equal (ip x : IP) : Bool :=
  if ip.len = x.len then
    decide (ip.bytes = x.bytes)
  else if ip.len = IPv4len ∧ x.len = IPv6len then
    decide (x.bytes.take 12 = v4InV6Prefix) && decide (ip.bytes = x.bytes.drop 12)
  else if ip.len = IPv6len ∧ x.len = IPv4len then
    decide (ip.bytes.take 12 = v4InV6Prefix) && decide (ip.bytes.drop 12 = x.bytes)
  else
    false

/-- Go `isZeros`. -/
def isZeros (p : List Byte) : Bool := p.all (fun b => decide (b = 0))

/-- Go `net.IP.To4`: the 4-byte form of an IPv4 address, nil for anything else. In the
standard library: `ip` itself when `len(ip) == IPv4len`; `ip[12:16]` when
`len(ip) == IPv6len && isZeros(ip[0:10]) && ip[10] == 0xff && ip[11] == 0xff`; else
`nil`. -/
def IP.To4 (ip : IP) : IP :=
  if ip.len = IPv4len then
    ip
  else if ip.len = IPv6len ∧ isZeros (ip.bytes.take 10) = true
      ∧ ip.bytes.getD 10 0 = 0xff ∧ ip.bytes.getD 11 0 = 0xff then
    some ((ip.bytes.drop 12).take 4)
  else
    none

/-- Go `net.IP.IsPrivate` (RFC 1918 and RFC 4193). In the standard library: when
`ip4 := ip.To4()` is not nil,
`ip4[0] == 10 || (ip4[0] == 172 && ip4[1]&0xf0 == 16) || (ip4[0] == 192 && ip4[1] == 168)`;
else `len(ip) == IPv6len && ip[0]&0xfe == 0xfc`. -/
def IP.IsPrivate (ip : IP) : Bool :=
  match ip.To4 with
  | some ip4 =>
    decide (ip4.getD 0 0 = 10)
      || (decide (ip4.getD 0 0 = 172) && decide (ip4.getD 1 0 &&& 0xf0 = 16))
      || (decide (ip4.getD 0 0 = 192) && decide (ip4.getD 1 0 = 168))
  | none => decide (ip.len = IPv6len) && decide (ip.bytes.getD 0 0 &&& 0xfe = 0xfc)

/-! ## The routing facility -/

/-- A `netlink.Link`: a network interface, known by its index. -/
structure Link where
  Index : Int
  deriving DecidableEq, Repr

/-- The fields of `netlink.Route` that `getAddress` reads: the destination prefix
(`nil` for a default route; the prefix is an address and a prefix length) and the index
of the link the route goes through. -/
structure Route where
  Dst : Option (List Byte × Nat)
  LinkIndex : Int
  deriving DecidableEq, Repr

/-- The fields of `netlink.Addr` that `getAddress` reads. -/
structure Addr where
  IP : IP
  Scope : Int
  Flags : Int
  deriving DecidableEq, Repr

/-- Go `netlink.SCOPE_UNIVERSE`. -/
def SCOPE_UNIVERSE : Int := 0

/-- Go `unix.IFA_F_TEMPORARY`. -/
def IFA_F_TEMPORARY : Int := 1

/-- Go `netlink.FAMILY_V4` (`AF_INET`). -/
def FAMILY_V4 : Int := 2

/-- Go `netlink.FAMILY_V6` (`AF_INET6`). -/
def FAMILY_V6 : Int := 10

/-- The errors `getAddress` returns: an error of the facility, handed on unchanged, or
one of its own two `fmt.Errorf` values, which carry the number found. -/
inductive Err where
  /-- An error returned by a netlink call. -/
  | netlink (msg : String)
  /-- The value `fmt.Errorf("found %d default routes, expecting 1", n)`. -/
  | foundDefaultRoutes (n : Nat)
  /-- The value `fmt.Errorf("found %d addresses, expecting 1", n)`. -/
  | foundAddresses (n : Nat)
  deriving DecidableEq, Repr

/-- The answers of the routing facility at one moment. -/
structure Netlink where
  RouteList : Option Link → Int → Except Err (List Route)
  LinkByIndex : Int → Except Err Link
  AddrList : Link → Int → Except Err (List Addr)

/-- A call made to the routing facility. -/
inductive Call where
  | RouteList (link : Option Link) (family : Int)
  | LinkByIndex (index : Int)
  | AddrList (link : Link) (family : Int)
  deriving DecidableEq, Repr

/-- The test of the filter loop of `getAddress` (lines 149-164): an address is kept
when none of the three `continue` statements is taken. -/
def keepAddr (a : Addr) : Bool :=
  !(decide (a.Scope ≠ SCOPE_UNIVERSE))
    && !(decide (Int.land a.Flags IFA_F_TEMPORARY ≠ 0))
    && !(a.IP.IsPrivate)

/-- Lines 142-173 of `getAddress`: list the addresses of the link, filter them, and
switch on the number left. Returns the pair `(address, err)` and the calls made. -/
def getAddress.fromLink (nl : Netlink) (link : Link) (family : Int) :
    (IP × Option Err) × List Call :=
  match nl.AddrList link family with
  | .error err => ((none, some err), [Call.AddrList link family])
  | .ok addrs =>
    let filteredAddresses := addrs.filter keepAddr
    match filteredAddresses with
    | [] => ((none, none), [Call.AddrList link family])
    | [a] => ((a.IP, none), [Call.AddrList link family])
    | _ => ((none, some (Err.foundAddresses filteredAddresses.length)),
        [Call.AddrList link family])

/-- Go `getAddress` (lines 113-174). With no link given, the link is the one of the
single default route; then the single suitable address of the link is returned.
Returns the pair `(address, err)` and the calls made to the facility, in order. -/
def getAddress (nl : Netlink) (link : Option Link) (family : Int) :
    (IP × Option Err) × List Call :=
  match link with
  | some l => getAddress.fromLink nl l family
  | none =>
    match nl.RouteList none family with
    | .error err => ((none, some err), [Call.RouteList none family])
    | .ok routes =>
      let defaultRoutes := routes.filter (fun r => r.Dst.isNone)
      match defaultRoutes with
      | [] => ((none, none), [Call.RouteList none family])
      | [r] =>
        match nl.LinkByIndex r.LinkIndex with
        | .error err =>
          ((none, some err), [Call.RouteList none family, Call.LinkByIndex r.LinkIndex])
        | .ok l =>
          let out := getAddress.fromLink nl l family
          (out.1, [Call.RouteList none family, Call.LinkByIndex r.LinkIndex] ++ out.2)
      | _ => ((none, some (Err.foundDefaultRoutes defaultRoutes.length)),
          [Call.RouteList none family])

/-! ## The loop of `main` -/

/-- Go `url.Values` (`map[string][]string`): the values stored under each key, a key
that is not in the map having none. -/
abbrev Values := String → List String

/-- Go `url.Values.Add`: `v[key] = append(v[key], value)`. -/
def Values.Add (v : Values) (key value : String) : Values :=
  fun k => if k = key then v k ++ [value] else v k

/-- Library functions whose results the program passes on without looking inside. -/
structure Lib where
  /-- Go `url.ParseQuery` (its error is dropped on line 71). -/
  ParseQuery : String → Values
  /-- Go `url.Values.Encode`. -/
  Encode : Values → String
  /-- Go `net.IP.String`. -/
  IPString : IP → String

/-- The fields of the `url.URL` held in `hookURL`. -/
structure URL where
  Scheme : String
  User : Option (String × String)
  Host : String
  Path : String
  RawQuery : String
  deriving DecidableEq, Repr

/-- The fields of `http.Response` that the loop reads. -/
structure Response where
  StatusCode : Int
  Body : String
  deriving DecidableEq, Repr

/-- What the loop reads and never writes: the flags, the query of the url as parsed at
startup (line 45) and the link named by `-interface` (lines 47-54; `nil` when the flag
is empty). Durations are `time.Duration` values. -/
structure Config where
  interval : Int
  errorInterval : Int
  ipv4param : String
  ipv6param : String
  originalRawQuery : String
  link : Option Link

/-- The variables the loop writes: the two submitted addresses (line 56) and `hookURL`,
whose `RawQuery` is assigned on line 78. -/
structure State where
  submittedIPv4 : IP
  submittedIPv6 : IP
  hookURL : URL
  deriving DecidableEq, Repr

/-- What the outside world answers during one iteration: the routing facility, and
`http.Get` for the url requested (an error of the transport, or a response). -/
structure World where
  nl : Netlink
  Get : URL → Except String Response

/-- The effects of the loop that are recorded: a GET request for a url, and a
`time.Sleep`. -/
inductive Event where
  | get (url : URL)
  | sleep (d : Int)
  deriving DecidableEq, Repr

/-- The condition of the `if` on line 68:
`!(ipv4 == nil && ipv6 == nil) && !(ipv4.Equal(submittedIPv4) && ipv6.Equal(submittedIPv6))`. -/
def shouldNotify (ipv4 ipv6 submittedIPv4 submittedIPv6 : IP) : Bool :=
  !(decide (ipv4 = none) && decide (ipv6 = none))
    && !(ipv4.Equal submittedIPv4 && ipv6.Equal submittedIPv6)

/-- Lines 71-77: the query of the request, built from the query parsed at startup. -/
def requestQuery (cfg : Config) (lib : Lib) (ipv4 ipv6 : IP) : Values :=
  let query := lib.ParseQuery cfg.originalRawQuery
  let query :=
    if cfg.ipv4param ≠ "" ∧ ipv4 ≠ none then query.Add cfg.ipv4param (lib.IPString ipv4)
    else query
  let query :=
    if cfg.ipv6param ≠ "" ∧ ipv6 ≠ none then query.Add cfg.ipv6param (lib.IPString ipv6)
    else query
  query

/-- The pair of addresses an iteration resolves (lines 58 and 63); the errors of
`getAddress` are only logged. -/
def resolve (cfg : Config) (w : World) : IP × IP :=
  ((getAddress w.nl cfg.link FAMILY_V4).1.1, (getAddress w.nl cfg.link FAMILY_V6).1.1)

/-- One pass through the body of the `for` loop (lines 58-108), from the state before
it to the state after it and the requests and sleeps it made, in order. The `continue`
on line 94 ends the pass after the sleep of line 93. -/
def iteration (cfg : Config) (lib : Lib) (w : World) (s : State) : State × List Event :=
  let ipv4 := (getAddress w.nl cfg.link FAMILY_V4).1.1
  let ipv6 := (getAddress w.nl cfg.link FAMILY_V6).1.1
  if shouldNotify ipv4 ipv6 s.submittedIPv4 s.submittedIPv6 then
    let query := requestQuery cfg lib ipv4 ipv6
    let hookURL := { s.hookURL with RawQuery := lib.Encode query }
    if hookURL.Host = "" then
      ({ s with hookURL := hookURL }, [Event.sleep cfg.interval])
    else
      match w.Get hookURL with
      | .error _ =>
        ({ s with hookURL := hookURL }, [Event.get hookURL, Event.sleep cfg.interval])
      | .ok response =>
        if response.StatusCode ≠ 200 then
          ({ s with hookURL := hookURL },
            [Event.get hookURL, Event.sleep cfg.errorInterval])
        else
          ({ submittedIPv4 := ipv4, submittedIPv6 := ipv6, hookURL := hookURL },
            [Event.get hookURL, Event.sleep cfg.interval])
  else
    (s, [Event.sleep cfg.interval])

/-- The first passes of the loop, one for each answer of the world: the state after
each pass and the events of the pass. -/
def loop (cfg : Config) (lib : Lib) : List World → State → List (State × List Event)
  | [], _ => []
  | w :: ws, s =>
    let out := iteration cfg lib w s
    out :: loop cfg lib ws out.1

/-- The state in which `main` enters the loop (line 56): nothing submitted yet. -/
def initialState (hookURL : URL) : State :=
  { submittedIPv4 := none, submittedIPv6 := none, hookURL := hookURL }

/-- Whether a pass sent a request. -/
def sentRequest (events : List Event) : Bool :=
  events.any (fun e => match e with
    | Event.get _ => true
    | Event.sleep _ => false)

/-- The sleeps of a pass, in order. -/
def sleeps (events : List Event) : List Int :=
  events.filterMap (fun e => match e with
    | Event.get _ => none
    | Event.sleep d => some d)

/-- The answer to the request of a pass is a rejection: a response whose status is
not 200. -/
def Rejected (w : World) (url : URL) : Prop :=
  ∃ response, w.Get url = .ok response ∧ response.StatusCode ≠ 200

/-- The answer to the request of a pass is an acknowledgement: a response with
status 200. -/
def Acknowledged (w : World) (url : URL) : Prop :=
  ∃ response, w.Get url = .ok response ∧ response.StatusCode = 200

/-! ## The private ranges, as the specification names them -/

/-- The number a byte string denotes, most significant byte first. -/
def beValue (bs : List Byte) : Nat := bs.foldl (fun n b => n * 256 + b.val) 0

/-- Membership of an address in the prefix `net/bits`, for an address with as many
bytes as `net`: the leading `bits` bits of the two are the same. -/
def inPrefix (net : List Byte) (bits : Nat) (addr : List Byte) : Bool :=
  decide (addr.length = net.length)
    && decide (beValue addr / 2 ^ (8 * net.length - bits)
        = beValue net / 2 ^ (8 * net.length - bits))

/-- The private ranges of the specification: 10.0.0.0/8, 172.16.0.0/12, 192.168.0.0/16
and fc00::/7. An IPv4 address is looked at in its 4-byte form, whichever of its two
forms the slice holds. -/
def inPrivateRange (ip : IP) : Bool :=
  inPrefix [10, 0, 0, 0] 8 ip.To4.bytes
    || inPrefix [172, 16, 0, 0] 12 ip.To4.bytes
    || inPrefix [192, 168, 0, 0] 16 ip.To4.bytes
    || inPrefix [0xfc, 0, 0, 0, 0, 0, 0, 0, 0, 0, 0, 0, 0, 0, 0, 0] 7 ip.bytes

/-- An address qualifies, in the words of the specification: its scope is global, its
temporary flag is unset, and it lies in none of the private ranges. -/
def qualifies (a : Addr) : Bool :=
  decide (a.Scope = SCOPE_UNIVERSE)
    && decide (Int.land a.Flags IFA_F_TEMPORARY = 0)
    && !(inPrivateRange a.IP)

/-- The url of the request of a pass: `hookURL` after the assignment of line 78. -/
def requestURL (cfg : Config) (lib : Lib) (w : World) (s : State) : URL :=
  { s.hookURL with
    RawQuery := lib.Encode (requestQuery cfg lib (resolve cfg w).1 (resolve cfg w).2) }

/-- A pass sends a request: the condition of line 68 holds and the host of the url is
not empty (line 81). -/
def RequestSent (cfg : Config) (w : World) (s : State) : Prop :=
  shouldNotify (resolve cfg w).1 (resolve cfg w).2 s.submittedIPv4 s.submittedIPv6 = true
    ∧ s.hookURL.Host ≠ ""

/-! ## A small host, for the examples -/

/-- A host with one default route and one on-link route for IPv4, both through link 2;
on that link a public address, a private one and a temporary one; nothing for IPv6. -/
def exNetlink : Netlink where
  RouteList := fun _ family =>
    if family = FAMILY_V4 then
      .ok [{ Dst := none, LinkIndex := 2 },
        { Dst := some ([203, 0, 113, 0], 24), LinkIndex := 2 }]
    else .ok []
  LinkByIndex := fun index => .ok { Index := index }
  AddrList := fun _ family =>
    if family = FAMILY_V4 then
      .ok [{ IP := some [203, 0, 113, 5], Scope := 0, Flags := 0 },
        { IP := some [192, 168, 1, 7], Scope := 0, Flags := 0 },
        { IP := some [198, 51, 100, 9], Scope := 0, Flags := 1 }]
    else .ok []

/-- The same host at a moment when the link of the default route can no longer be
looked up. -/
def exNetlinkLinkGone : Netlink :=
  { exNetlink with LinkByIndex := fun _ => .error (Err.netlink "Link not found") }

/-- A host on which no address resolves: no routes at all. -/
def exNetlinkDown : Netlink :=
  { exNetlink with RouteList := fun _ _ => .ok [] }

/-- The flags at their defaults but for the url, with the query the url has at startup;
no interface pinned. -/
def exConfig : Config where
  interval := 5000000000
  errorInterval := 300000000000
  ipv4param := "myip"
  ipv6param := "myipv6"
  originalRawQuery := "hostname=test.example.com"
  link := none

/-- Stand-ins for the library functions, enough to tell the requests of the examples
apart. -/
def exLib : Lib where
  ParseQuery := fun raw k =>
    if raw = "hostname=test.example.com" ∧ k = "hostname" then ["test.example.com"] else []
  Encode := fun query =>
    String.intercalate "&" (["hostname", "myip", "myipv6"].map
      (fun k => String.intercalate "," (query k)))
  IPString := fun ip => if ip = some [203, 0, 113, 5] then "203.0.113.5" else "?"

/-- The url of the examples as parsed at startup. -/
def exURL : URL where
  Scheme := "https"
  User := none
  Host := "dyn.example.com"
  Path := "/nic/update"
  RawQuery := "hostname=test.example.com"

/-- The example host with a remote end that gives the same answer to every request. -/
def exWorld (answer : Except String Response) : World where
  nl := exNetlink
  Get := fun _ => answer

/-! # Theorems -/

/-- The number of default routes of a list is the length of the list `getAddress`
collects in `defaultRoutes`. -/
theorem countP_default_eq (routes : List Route) :
    routes.countP (fun r => r.Dst.isNone) = (routes.filter (fun r => r.Dst.isNone)).length :=
  List.countP_eq_length_filter _ _

/-- What `getAddress` does without a link once the routes are listed, by the shape of
`defaultRoutes`. -/
theorem getAddress_none_eq (nl : Netlink) (family : Int) (routes : List Route)
    (hroutes : nl.RouteList none family = .ok routes) :
    getAddress nl none family =
      match routes.filter (fun r => r.Dst.isNone) with
      | [] => ((none, none), [Call.RouteList none family])
      | [r] =>
        match nl.LinkByIndex r.LinkIndex with
        | .error err =>
          ((none, some err), [Call.RouteList none family, Call.LinkByIndex r.LinkIndex])
        | .ok l =>
          ((getAddress.fromLink nl l family).1,
            [Call.RouteList none family, Call.LinkByIndex r.LinkIndex]
              ++ (getAddress.fromLink nl l family).2)
      | _ => ((none, some (Err.foundDefaultRoutes
            (routes.filter (fun r => r.Dst.isNone)).length)), [Call.RouteList none family]) := by
  simp only [getAddress, hroutes]

/-- The address stage makes exactly one call: the address list of the link. -/
theorem fromLink_calls (nl : Netlink) (l : Link) (family : Int) :
    (getAddress.fromLink nl l family).2 = [Call.AddrList l family] := by
  unfold getAddress.fromLink
  split
  · rfl
  · dsimp only
    split <;> rfl

/-- C1, as amended: with no link pinned and the routes listed, `getAddress` goes by the
number `n` of routes without a destination prefix. If `n = 0` it returns an absent
address and no error, having made no call but the route list. If `n = 1` it looks up
the link with the index of that route: if the lookup fails it returns an absent address
and the error of the lookup, without listing any addresses; if it succeeds it lists the
addresses of that link and returns what the address stage returns. If `n ≥ 2` it returns
an absent address and the error that counts the default routes. Routes with a
destination prefix have no influence: two route lists with the same default routes
give the same result. -/
theorem getAddress_default_routes (nl : Netlink) (family : Int) (routes : List Route)
    (hroutes : nl.RouteList none family = .ok routes) :
    (routes.countP (fun r => r.Dst.isNone) = 0 →
      getAddress nl none family = ((none, none), [Call.RouteList none family]))
    ∧ (routes.countP (fun r => r.Dst.isNone) = 1 →
      ∃ r, routes.filter (fun r => r.Dst.isNone) = [r]
        ∧ (∀ err, nl.LinkByIndex r.LinkIndex = .error err →
            getAddress nl none family =
              ((none, some err),
                [Call.RouteList none family, Call.LinkByIndex r.LinkIndex]))
        ∧ (∀ l, nl.LinkByIndex r.LinkIndex = .ok l →
            getAddress nl none family =
              ((getAddress.fromLink nl l family).1,
                [Call.RouteList none family, Call.LinkByIndex r.LinkIndex,
                  Call.AddrList l family])))
    ∧ (2 ≤ routes.countP (fun r => r.Dst.isNone) →
      getAddress nl none family =
        ((none, some (Err.foundDefaultRoutes (routes.countP (fun r => r.Dst.isNone)))),
          [Call.RouteList none family]))
    ∧ (∀ (nl2 : Netlink) (routes2 : List Route),
        nl2.RouteList none family = .ok routes2 →
        nl2.LinkByIndex = nl.LinkByIndex → nl2.AddrList = nl.AddrList →
        routes2.filter (fun r => r.Dst.isNone) = routes.filter (fun r => r.Dst.isNone) →
        getAddress nl2 none family = getAddress nl none family) := by
  have key := getAddress_none_eq nl family routes hroutes
  rw [countP_default_eq]
  refine ⟨?_, ?_, ?_, ?_⟩
  · intro h0
    rw [List.length_eq_zero] at h0
    rw [key, h0]
  · intro h1
    obtain ⟨r, hr⟩ := List.length_eq_one.mp h1
    refine ⟨r, hr, ?_, ?_⟩
    · intro err herr
      rw [key, hr]
      simp only [herr]
    · intro l hl
      rw [key, hr]
      simp only [hl, fromLink_calls]
      rfl
  · intro h2
    rw [key]
    rcases hf : routes.filter (fun r => r.Dst.isNone) with _ | ⟨r, _ | ⟨r2, rest⟩⟩
    · rw [hf] at h2; simp at h2
    · rw [hf] at h2; simp at h2
    · simp only [hf]
  · intro nl2 routes2 hroutes2 hlink haddr hfilter
    rw [key, getAddress_none_eq nl2 family routes2 hroutes2, hfilter, hlink]
    have hfrom : ∀ l, getAddress.fromLink nl2 l family = getAddress.fromLink nl l family := by
      intro l
      simp only [getAddress.fromLink, haddr]
    simp only [hfrom]

/-! ## The filter of `getAddress` and the private ranges -/

set_option maxRecDepth 100000 in
/-- The mask test of the 172.16.0.0/12 range, on one byte. -/
theorem byte_mask_f0 : ∀ b : Byte, (b &&& 0xf0 = 16) ↔ b.val / 16 = 1 := by decide

set_option maxRecDepth 100000 in
/-- The mask test of the fc00::/7 range, on one byte. -/
theorem byte_mask_fe : ∀ b : Byte, (b &&& 0xfe = 0xfc) ↔ b.val / 2 = 126 := by decide

/-- Folding from a start value shifts the start value past the bytes. -/
theorem foldl_beValue (bs : List Byte) (n : Nat) :
    bs.foldl (fun n b => n * 256 + b.val) n = n * 256 ^ bs.length + beValue bs := by
  induction bs generalizing n with
  | nil => simp [beValue]
  | cons b bs ih =>
    simp only [List.foldl_cons, List.length_cons, beValue]
    rw [ih, ih (0 * 256 + b.val)]
    ring

/-- The value of a byte string, by its first byte. -/
theorem beValue_cons (b : Byte) (bs : List Byte) :
    beValue (b :: bs) = b.val * 256 ^ bs.length + beValue bs := by
  simp only [beValue, List.foldl_cons]
  rw [foldl_beValue]
  simp [beValue]

/-- A string of `n` bytes denotes a number below `256 ^ n`. -/
theorem beValue_lt (bs : List Byte) : beValue bs < 256 ^ bs.length := by
  induction bs with
  | nil => simp [beValue]
  | cons b bs ih =>
    rw [beValue_cons, List.length_cons, pow_succ]
    have hb := b.isLt
    nlinarith

/-- The three IPv4 ranges on a 4-byte address, byte by byte. -/
theorem inPrefix_four (a b c d : Byte) :
    inPrefix [10, 0, 0, 0] 8 [a, b, c, d] = decide (a.val = 10)
    ∧ inPrefix [172, 16, 0, 0] 12 [a, b, c, d] = decide (a.val = 172 ∧ b.val / 16 = 1)
    ∧ inPrefix [192, 168, 0, 0] 16 [a, b, c, d] = decide (a.val = 192 ∧ b.val = 168) := by
  have ha := a.isLt
  have hb := b.isLt
  have hc := c.isLt
  have hd := d.isLt
  refine ⟨?_, ?_, ?_⟩ <;> rw [Bool.eq_iff_iff] <;>
    simp only [inPrefix, beValue, List.length_cons, List.length_nil, List.foldl_cons,
      List.foldl_nil, Bool.and_eq_true, decide_eq_true_eq] <;> norm_num <;> omega

/-- The range fc00::/7 on a 16-byte address, by its first byte. -/
theorem inPrefix_sixteen (b0 : Byte) (rest : List Byte) (hrest : rest.length = 15) :
    inPrefix [0xfc, 0, 0, 0, 0, 0, 0, 0, 0, 0, 0, 0, 0, 0, 0, 0] 7 (b0 :: rest)
      = decide (b0.val / 2 = 126) := by
  have h0 := b0.isLt
  have hlt := beValue_lt rest
  rw [hrest] at hlt
  have hval := beValue_cons b0 rest
  rw [hrest] at hval
  rw [Bool.eq_iff_iff]
  simp only [inPrefix, List.length_cons, List.length_nil, hrest, Bool.and_eq_true,
    decide_eq_true_eq, hval]
  norm_num [beValue] at hlt ⊢
  omega

/-- An address of another length than the prefix is not in the prefix. -/
theorem inPrefix_length (net : List Byte) (bits : Nat) (addr : List Byte)
    (h : addr.length ≠ net.length) : inPrefix net bits addr = false := by
  simp [inPrefix, h]

/-- Go `len(ip)` is the number of bytes. -/
theorem len_eq_length (ip : IP) : ip.len = ip.bytes.length := by
  cases ip <;> rfl

/-- When `To4` yields an address it has four bytes, and the slice it came from is not
in fc00::/7. -/
theorem to4_some (ip : IP) (ip4 : List Byte) (h : ip.To4 = some ip4) :
    ip4.length = 4
    ∧ inPrefix [0xfc, 0, 0, 0, 0, 0, 0, 0, 0, 0, 0, 0, 0, 0, 0, 0] 7 ip.bytes = false := by
  unfold IP.To4 at h
  split_ifs at h with h4 h16
  · subst h
    simp only [IP.len, IPv4len] at h4
    refine ⟨h4, inPrefix_length _ _ _ ?_⟩
    simp [IP.bytes, h4]
  · obtain ⟨hlen, hzero, _, _⟩ := h16
    rw [len_eq_length] at hlen
    simp only [IPv6len] at hlen
    have h4eq : ip4 = (ip.bytes.drop 12).take 4 := by
      injection h with h
      exact h.symm
    refine ⟨by simp [h4eq, hlen], ?_⟩
    rcases hb : ip.bytes with _ | ⟨b0, rest⟩
    · rw [hb] at hlen
      simp at hlen
    · rw [hb] at hlen hzero
      have hrest : rest.length = 15 := by simpa using hlen
      have hb0 : b0 = 0 := by
        simp [isZeros] at hzero
        exact hzero.1
      rw [inPrefix_sixteen b0 rest hrest, hb0]
      decide

/-- Go `net.IP.IsPrivate` is membership in one of the four private ranges. -/
theorem isPrivate_eq_inPrivateRange (ip : IP) : ip.IsPrivate = inPrivateRange ip := by
  unfold IP.IsPrivate inPrivateRange
  cases h : ip.To4 with
  | some ip4 =>
    obtain ⟨hlen, hv6⟩ := to4_some ip ip4 h
    rw [hv6]
    simp only [IP.bytes, Bool.or_false]
    match ip4, hlen with
    | [a, b, c, d], _ =>
      obtain ⟨h8, h12, h16⟩ := inPrefix_four a b c d
      rw [h8, h12, h16, Bool.eq_iff_iff]
      simp only [List.getD_cons_zero, List.getD_cons_succ, Bool.or_eq_true,
        Bool.and_eq_true, decide_eq_true_eq, byte_mask_f0]
      simp only [Fin.ext_iff]
      exact Iff.rfl
  | none =>
    have h8 : inPrefix [10, 0, 0, 0] 8 [] = false := inPrefix_length _ _ _ (by simp)
    have h12 : inPrefix [172, 16, 0, 0] 12 [] = false := inPrefix_length _ _ _ (by simp)
    have h16 : inPrefix [192, 168, 0, 0] 16 [] = false := inPrefix_length _ _ _ (by simp)
    simp only [IP.bytes, h8, h12, h16, Bool.false_or]
    by_cases hlen : ip.len = IPv6len
    · rw [len_eq_length] at hlen
      simp only [IPv6len] at hlen
      cases ip with
      | none => simp [IP.bytes] at hlen
      | some bs =>
        simp only [IP.bytes] at hlen ⊢
        rcases bs with _ | ⟨b0, rest⟩
        · simp at hlen
        · have hrest : rest.length = 15 := by simpa using hlen
          rw [inPrefix_sixteen b0 rest hrest, Bool.eq_iff_iff]
          simp [IP.len, IPv6len, hrest, byte_mask_fe]
    · have hne : ip.bytes.length ≠ 16 := by
        rw [← len_eq_length]
        exact hlen
      rw [inPrefix_length _ _ _ (by simpa using hne)]
      simp [hlen]

/-- The filter of `getAddress` keeps exactly the addresses that qualify. -/
theorem keepAddr_eq_qualifies : keepAddr = qualifies := by
  funext a
  simp only [keepAddr, qualifies, isPrivate_eq_inPrivateRange]
  congr 1
  congr 1
  · simp
  · simp

/-- The result of the address stage once the addresses are listed, by the shape of the
list of qualifying addresses. -/
theorem fromLink_result (nl : Netlink) (l : Link) (family : Int) (addrs : List Addr)
    (haddrs : nl.AddrList l family = .ok addrs) :
    (getAddress.fromLink nl l family).1 =
      match addrs.filter qualifies with
      | [] => (none, none)
      | [a] => (a.IP, none)
      | _ => (none, some (Err.foundAddresses (addrs.filter qualifies).length)) := by
  simp only [getAddress.fromLink, haddrs, keepAddr_eq_qualifies]
  rcases hf : addrs.filter qualifies with _ | ⟨a, _ | ⟨a2, rest⟩⟩ <;> rfl

/-- With the link pinned, or resolved from the single default route, the result of
`getAddress` is the result of the address stage on that link. -/
theorem getAddress_result_eq_fromLink (nl : Netlink) (link : Option Link) (family : Int)
    (l : Link)
    (hlink : link = some l ∨ (link = none ∧ ∃ routes r,
      nl.RouteList none family = .ok routes
        ∧ routes.filter (fun r => r.Dst.isNone) = [r]
        ∧ nl.LinkByIndex r.LinkIndex = .ok l)) :
    (getAddress nl link family).1 = (getAddress.fromLink nl l family).1 := by
  rcases hlink with h | ⟨h, routes, r, hroutes, hr, hl⟩
  · subst h
    rfl
  · subst h
    rw [getAddress_none_eq nl family routes hroutes, hr]
    simp only [hl]

/-- C2: once the addresses of the pinned link, or of the link resolved from the single
default route, are listed, the result of `getAddress` is decided by the entries that
qualify (global scope, temporary flag unset, outside 10.0.0.0/8, 172.16.0.0/12,
192.168.0.0/16 and fc00::/7). None qualifies: absent, no error. Exactly one: its IP, no
error. Two or more: absent and the error that counts them. The error is returned only
in the last case; and when the qualifying entries carry an address (their IP is not
the nil slice), absent without error is returned only in the first case and an
address only in the second. Any address returned is the IP of a qualifying entry. -/
theorem getAddress_qualifying (nl : Netlink) (link : Option Link) (family : Int)
    (l : Link) (addrs : List Addr)
    (hlink : link = some l ∨ (link = none ∧ ∃ routes r,
      nl.RouteList none family = .ok routes
        ∧ routes.filter (fun r => r.Dst.isNone) = [r]
        ∧ nl.LinkByIndex r.LinkIndex = .ok l))
    (haddrs : nl.AddrList l family = .ok addrs) :
    (addrs.countP qualifies = 0 → (getAddress nl link family).1 = (none, none))
    ∧ (∀ a, addrs.filter qualifies = [a] → (getAddress nl link family).1 = (a.IP, none))
    ∧ (2 ≤ addrs.countP qualifies →
        (getAddress nl link family).1
          = (none, some (Err.foundAddresses (addrs.countP qualifies))))
    ∧ ((∃ n, (getAddress nl link family).1 = (none, some (Err.foundAddresses n)))
        ↔ 2 ≤ addrs.countP qualifies)
    ∧ ((∀ a ∈ addrs, qualifies a = true → a.IP ≠ none) →
        ((getAddress nl link family).1 = (none, none) ↔ addrs.countP qualifies = 0)
        ∧ (∀ ip : IP, ip ≠ none →
            ((getAddress nl link family).1 = (ip, none)
              ↔ addrs.countP qualifies = 1
                ∧ ∃ a ∈ addrs, qualifies a = true ∧ a.IP = ip)))
    ∧ (∀ ip : IP, ip ≠ none → (getAddress nl link family).1.1 = ip →
        ∃ a ∈ addrs, qualifies a = true ∧ a.IP = ip) := by
  rw [getAddress_result_eq_fromLink nl link family l hlink,
    fromLink_result nl l family addrs haddrs, List.countP_eq_length_filter]
  have hmem : ∀ a, a ∈ addrs.filter qualifies → a ∈ addrs ∧ qualifies a = true := by
    intro a ha
    exact List.mem_filter.mp ha
  rcases hf : addrs.filter qualifies with _ | ⟨a, _ | ⟨a2, rest⟩⟩
  · refine ⟨by simp, by simp, by simp, by simp, ?_, ?_⟩
    · intro _
      refine ⟨by simp, ?_⟩
      intro ip hip
      constructor
      · intro h
        have : (none : IP) = ip := by simpa using h
        exact absurd this.symm hip
      · rintro ⟨h, _⟩
        simp at h
    · intro ip hip h
      exact absurd h.symm hip
  · have ha := hmem a (by rw [hf]; exact List.mem_singleton_self a)
    refine ⟨by simp, by simp, by simp, by simp, ?_, ?_⟩
    · intro hpresent
      have hIP := hpresent a ha.1 ha.2
      refine ⟨by simpa using hIP, ?_⟩
      intro ip _
      constructor
      · intro h
        have hip : a.IP = ip := by
          simp at h
          exact h
        exact ⟨rfl, a, ha.1, ha.2, hip⟩
      · rintro ⟨_, b, hb, hqb, hbip⟩
        have hbin : b ∈ addrs.filter qualifies := List.mem_filter.mpr ⟨hb, hqb⟩
        rw [hf] at hbin
        have hba : b = a := by simpa using hbin
        simp [← hbip, hba]
    · intro ip _ h
      exact ⟨a, ha.1, ha.2, h⟩
  · refine ⟨by simp, by simp, by simp, by simp, ?_, ?_⟩
    · intro _
      refine ⟨by simp, ?_⟩
      intro ip hip
      constructor
      · intro h
        simp at h
      · rintro ⟨h, _⟩
        simp at h
    · intro ip hip h
      exact absurd (by simp at h; exact h.symm) hip

/-! ## The loop -/

/-- Go `net.IP.Equal` holds between an address and itself. -/
theorem equal_self (ip : IP) : ip.Equal ip = true := by
  simp [IP.Equal]

/-- What a pass does when the condition of line 68 is false. -/
theorem iteration_unchanged (cfg : Config) (lib : Lib) (w : World) (s : State)
    (h : shouldNotify (resolve cfg w).1 (resolve cfg w).2 s.submittedIPv4 s.submittedIPv6
      = false) :
    iteration cfg lib w s = (s, [Event.sleep cfg.interval]) := by
  simp only [resolve] at h
  simp [iteration, h]

/-- What a pass does when the condition of line 68 is true and the host is empty. -/
theorem iteration_no_host (cfg : Config) (lib : Lib) (w : World) (s : State)
    (h : shouldNotify (resolve cfg w).1 (resolve cfg w).2 s.submittedIPv4 s.submittedIPv6
      = true)
    (hhost : s.hookURL.Host = "") :
    iteration cfg lib w s
      = ({ s with hookURL := requestURL cfg lib w s }, [Event.sleep cfg.interval]) := by
  simp only [resolve] at h
  simp [iteration, h, hhost, requestURL, resolve]

/-- What a pass does when its request fails in the transport. -/
theorem iteration_transport_error (cfg : Config) (lib : Lib) (w : World) (s : State)
    (h : shouldNotify (resolve cfg w).1 (resolve cfg w).2 s.submittedIPv4 s.submittedIPv6
      = true)
    (hhost : s.hookURL.Host ≠ "") (e : String)
    (hget : w.Get (requestURL cfg lib w s) = .error e) :
    iteration cfg lib w s
      = ({ s with hookURL := requestURL cfg lib w s },
          [Event.get (requestURL cfg lib w s), Event.sleep cfg.interval]) := by
  simp only [resolve] at h
  simp only [requestURL, resolve] at hget
  simp [iteration, h, hhost, requestURL, resolve, hget]

/-- What a pass does when its request is answered with a status other than 200. -/
theorem iteration_rejected (cfg : Config) (lib : Lib) (w : World) (s : State)
    (h : shouldNotify (resolve cfg w).1 (resolve cfg w).2 s.submittedIPv4 s.submittedIPv6
      = true)
    (hhost : s.hookURL.Host ≠ "") (r : Response)
    (hget : w.Get (requestURL cfg lib w s) = .ok r) (hstatus : r.StatusCode ≠ 200) :
    iteration cfg lib w s
      = ({ s with hookURL := requestURL cfg lib w s },
          [Event.get (requestURL cfg lib w s), Event.sleep cfg.errorInterval]) := by
  simp only [resolve] at h
  simp only [requestURL, resolve] at hget
  simp [iteration, h, hhost, requestURL, resolve, hget, hstatus]

/-- What a pass does when its request is answered with status 200. -/
theorem iteration_acknowledged (cfg : Config) (lib : Lib) (w : World) (s : State)
    (h : shouldNotify (resolve cfg w).1 (resolve cfg w).2 s.submittedIPv4 s.submittedIPv6
      = true)
    (hhost : s.hookURL.Host ≠ "") (r : Response)
    (hget : w.Get (requestURL cfg lib w s) = .ok r) (hstatus : r.StatusCode = 200) :
    iteration cfg lib w s
      = ({ submittedIPv4 := (resolve cfg w).1, submittedIPv6 := (resolve cfg w).2,
            hookURL := requestURL cfg lib w s },
          [Event.get (requestURL cfg lib w s), Event.sleep cfg.interval]) := by
  simp only [resolve] at h
  simp only [requestURL, resolve] at hget
  simp [iteration, h, hhost, requestURL, resolve, hget, hstatus]

/-- The five ways a pass can go. -/
theorem iteration_cases (cfg : Config) (lib : Lib) (w : World) (s : State) :
    (¬ RequestSent cfg w s
      ∧ (iteration cfg lib w s).2 = [Event.sleep cfg.interval]
      ∧ (iteration cfg lib w s).1.submittedIPv4 = s.submittedIPv4
      ∧ (iteration cfg lib w s).1.submittedIPv6 = s.submittedIPv6
      ∧ (iteration cfg lib w s).1.hookURL.Host = s.hookURL.Host)
    ∨ (RequestSent cfg w s ∧ (∃ e, w.Get (requestURL cfg lib w s) = .error e)
      ∧ iteration cfg lib w s
        = ({ s with hookURL := requestURL cfg lib w s },
            [Event.get (requestURL cfg lib w s), Event.sleep cfg.interval]))
    ∨ (RequestSent cfg w s ∧ Rejected w (requestURL cfg lib w s)
      ∧ iteration cfg lib w s
        = ({ s with hookURL := requestURL cfg lib w s },
            [Event.get (requestURL cfg lib w s), Event.sleep cfg.errorInterval]))
    ∨ (RequestSent cfg w s ∧ Acknowledged w (requestURL cfg lib w s)
      ∧ iteration cfg lib w s
        = ({ submittedIPv4 := (resolve cfg w).1, submittedIPv6 := (resolve cfg w).2,
              hookURL := requestURL cfg lib w s },
            [Event.get (requestURL cfg lib w s), Event.sleep cfg.interval])) := by
  by_cases h : shouldNotify (resolve cfg w).1 (resolve cfg w).2 s.submittedIPv4
      s.submittedIPv6 = true
  · by_cases hhost : s.hookURL.Host = ""
    · left
      rw [iteration_no_host cfg lib w s h hhost]
      exact ⟨fun hs => hs.2 hhost, rfl, rfl, rfl, rfl⟩
    · right
      have hsent : RequestSent cfg w s := ⟨h, hhost⟩
      cases hget : w.Get (requestURL cfg lib w s) with
      | error e =>
        left
        exact ⟨hsent, ⟨e, rfl⟩, iteration_transport_error cfg lib w s h hhost e hget⟩
      | ok r =>
        right
        by_cases hstatus : r.StatusCode = 200
        · right
          exact ⟨hsent, ⟨r, hget, hstatus⟩,
            iteration_acknowledged cfg lib w s h hhost r hget hstatus⟩
        · left
          exact ⟨hsent, ⟨r, hget, hstatus⟩,
            iteration_rejected cfg lib w s h hhost r hget hstatus⟩
  · left
    have hfalse : shouldNotify (resolve cfg w).1 (resolve cfg w).2 s.submittedIPv4
        s.submittedIPv6 = false := by simpa using h
    rw [iteration_unchanged cfg lib w s hfalse]
    exact ⟨fun hs => h hs.1, rfl, rfl, rfl, rfl⟩

/-- An answer is not both a rejection and an acknowledgement. -/
theorem not_rejected_of_acknowledged (w : World) (u : URL) (h : Acknowledged w u) :
    ¬ Rejected w u := by
  rintro ⟨r, hr, hne⟩
  obtain ⟨r2, hr2, h200⟩ := h
  rw [hr] at hr2
  injection hr2 with hr2
  subst hr2
  exact hne h200

/-- An error of the transport is neither a rejection nor an acknowledgement. -/
theorem not_answered_of_error (w : World) (u : URL) (e : String)
    (h : w.Get u = .error e) : ¬ Rejected w u ∧ ¬ Acknowledged w u := by
  constructor
  · rintro ⟨r, hr, _⟩
    rw [h] at hr
    cases hr
  · rintro ⟨r, hr, _⟩
    rw [h] at hr
    cases hr

/-- C3: the condition of line 68 holds exactly when the resolved pair is not absent in
both slots and is not equal, slot by slot, to the submitted pair. The equality is Go
`net.IP.Equal`: absent equals absent, and absent is never equal to an address that is
there (a slice with at least one byte). When both resolved values are absent the
condition is false whatever was submitted, and the pass does nothing but sleep the
normal interval. -/
theorem shouldNotify_iff (newV4 newV6 subV4 subV6 : IP) :
    (shouldNotify newV4 newV6 subV4 subV6 = true ↔
      ¬(newV4 = none ∧ newV6 = none)
        ∧ ¬(newV4.Equal subV4 = true ∧ newV6.Equal subV6 = true))
    ∧ IP.Equal none none = true
    ∧ (∀ bs : List Byte, bs ≠ [] →
        IP.Equal none (some bs) = false ∧ IP.Equal (some bs) none = false)
    ∧ (newV4 = none → newV6 = none → shouldNotify newV4 newV6 subV4 subV6 = false)
    ∧ (∀ (cfg : Config) (lib : Lib) (w : World) (s : State),
        resolve cfg w = (none, none) →
        iteration cfg lib w s = (s, [Event.sleep cfg.interval])) := by
  refine ⟨?_, ?_, ?_, ?_, ?_⟩
  · cases h1 : newV4.Equal subV4 <;> cases h2 : newV6.Equal subV6 <;>
      simp [shouldNotify, h1, h2] <;> tauto
  · rfl
  · intro bs hbs
    have hlen : bs.length ≠ 0 := fun h => hbs (List.length_eq_zero.mp h)
    constructor
    · simp [IP.Equal, IP.len, IPv4len, IPv6len, Ne.symm hlen]
    · simp [IP.Equal, IP.len, IPv4len, IPv6len, hlen]
  · intro h4 h6
    simp [shouldNotify, h4, h6]
  · intro cfg lib w s h
    apply iteration_unchanged
    rw [h]
    simp [shouldNotify]

/-- C4: change detection is reflexive. For a pair of possibly absent addresses that is
not absent in both slots, the condition of line 68 is false when the submitted pair is
the resolved pair. -/
theorem shouldNotify_self (x y : IP) (_hpair : ¬(x = none ∧ y = none)) :
    shouldNotify x y x y = false := by
  simp [shouldNotify, equal_self]

/-- C5: the submitted pair after a pass is the resolved pair when a request was sent and
answered with status 200, and is the submitted pair from before the pass in every other
case: the condition of line 68 false, the host empty, an error of the transport, or a
status other than 200. -/
theorem iteration_submitted (cfg : Config) (lib : Lib) (w : World) (s : State) :
    (RequestSent cfg w s ∧ Acknowledged w (requestURL cfg lib w s) →
      ((iteration cfg lib w s).1.submittedIPv4, (iteration cfg lib w s).1.submittedIPv6)
        = resolve cfg w)
    ∧ (¬(RequestSent cfg w s ∧ Acknowledged w (requestURL cfg lib w s)) →
      ((iteration cfg lib w s).1.submittedIPv4, (iteration cfg lib w s).1.submittedIPv6)
        = (s.submittedIPv4, s.submittedIPv6)) := by
  rcases iteration_cases cfg lib w s with
    ⟨hns, _, h4, h6, _⟩ | ⟨_, ⟨e, he⟩, hit⟩ | ⟨_, hrej, hit⟩ | ⟨hs, hack, hit⟩
  · exact ⟨fun h => absurd h.1 hns, fun _ => by rw [h4, h6]⟩
  · refine ⟨fun h => absurd h.2 (not_answered_of_error w _ e he).2, fun _ => ?_⟩
    rw [hit]
  · refine ⟨fun h => absurd hrej (not_rejected_of_acknowledged w _ h.2), fun _ => ?_⟩
    rw [hit]
  · refine ⟨fun _ => ?_, fun h => absurd ⟨hs, hack⟩ h⟩
    rw [hit]

/-- C6: every pass makes exactly one sleep, and it is the last thing the pass does. It
is the error interval when a request was sent and answered with a status other than
200, and the normal interval in every other case. -/
theorem iteration_sleeps (cfg : Config) (lib : Lib) (w : World) (s : State) :
    (RequestSent cfg w s ∧ Rejected w (requestURL cfg lib w s) →
      sleeps (iteration cfg lib w s).2 = [cfg.errorInterval]
        ∧ (iteration cfg lib w s).2.getLast? = some (Event.sleep cfg.errorInterval))
    ∧ (¬(RequestSent cfg w s ∧ Rejected w (requestURL cfg lib w s)) →
      sleeps (iteration cfg lib w s).2 = [cfg.interval]
        ∧ (iteration cfg lib w s).2.getLast? = some (Event.sleep cfg.interval)) := by
  rcases iteration_cases cfg lib w s with
    ⟨hns, hev, _, _, _⟩ | ⟨_, ⟨e, he⟩, hit⟩ | ⟨hs, hrej, hit⟩ | ⟨_, hack, hit⟩
  · refine ⟨fun h => absurd h.1 hns, fun _ => ?_⟩
    rw [hev]
    exact ⟨rfl, rfl⟩
  · refine ⟨fun h => absurd h.2 (not_answered_of_error w _ e he).1, fun _ => ?_⟩
    rw [hit]
    exact ⟨rfl, rfl⟩
  · refine ⟨fun _ => ?_, fun h => absurd ⟨hs, hrej⟩ h⟩
    rw [hit]
    exact ⟨rfl, rfl⟩
  · refine ⟨fun h => absurd h.2 (not_rejected_of_acknowledged w _ hack), fun _ => ?_⟩
    rw [hit]
    exact ⟨rfl, rfl⟩

/-- The url of every request of a pass is the url of line 78. -/
theorem iteration_get (cfg : Config) (lib : Lib) (w : World) (s : State) (u : URL)
    (h : Event.get u ∈ (iteration cfg lib w s).2) : u = requestURL cfg lib w s := by
  rcases iteration_cases cfg lib w s with
    ⟨_, hev, _, _, _⟩ | ⟨_, _, hit⟩ | ⟨_, _, hit⟩ | ⟨_, _, hit⟩
  · rw [hev] at h
    simp at h
  all_goals
    rw [hit] at h
    simpa using h

/-- The values of the request query under each key. -/
theorem requestQuery_apply (cfg : Config) (lib : Lib) (ipv4 ipv6 : IP) (k : String) :
    requestQuery cfg lib ipv4 ipv6 k
      = lib.ParseQuery cfg.originalRawQuery k
        ++ (if k = cfg.ipv4param ∧ cfg.ipv4param ≠ "" ∧ ipv4 ≠ none
            then [lib.IPString ipv4] else [])
        ++ (if k = cfg.ipv6param ∧ cfg.ipv6param ≠ "" ∧ ipv6 ≠ none
            then [lib.IPString ipv6] else []) := by
  unfold requestQuery
  by_cases h4 : cfg.ipv4param ≠ "" ∧ ipv4 ≠ none <;>
    by_cases h6 : cfg.ipv6param ≠ "" ∧ ipv6 ≠ none <;>
    by_cases hk4 : k = cfg.ipv4param <;>
    by_cases hk6 : k = cfg.ipv6param <;>
    simp only [Values.Add, h4, h6, hk4, hk6, if_true, if_false, and_self, true_and,
      and_true, false_and, not_false_eq_true, List.append_nil, List.append_assoc,
      List.singleton_append, ne_eq] <;>
    first
      | rfl
      | (rw [hk4] at hk6; simp [hk6])
      | (rw [hk6] at hk4; simp [hk4])

/-- C7: in the query of a request, a value is added under the IPv4 parameter name
exactly when the resolved IPv4 address is present and the name is not empty, and the
value is the text of that address; likewise, and independently, for IPv6. So the values
under a key are those of the query parsed at startup, then the IPv4 value if the key is
the IPv4 name and one was added, then the IPv6 value if the key is the IPv6 name and
one was added; with IPv6 absent only the IPv4 value is added. Every request of a pass
carries this query, encoded. -/
theorem requestQuery_values (cfg : Config) (lib : Lib) (ipv4 ipv6 : IP) :
    (∀ k : String, requestQuery cfg lib ipv4 ipv6 k
      = lib.ParseQuery cfg.originalRawQuery k
        ++ (if k = cfg.ipv4param ∧ cfg.ipv4param ≠ "" ∧ ipv4 ≠ none
            then [lib.IPString ipv4] else [])
        ++ (if k = cfg.ipv6param ∧ cfg.ipv6param ≠ "" ∧ ipv6 ≠ none
            then [lib.IPString ipv6] else []))
    ∧ (ipv6 = none → ∀ k : String, requestQuery cfg lib ipv4 ipv6 k
      = lib.ParseQuery cfg.originalRawQuery k
        ++ (if k = cfg.ipv4param ∧ cfg.ipv4param ≠ "" ∧ ipv4 ≠ none
            then [lib.IPString ipv4] else []))
    ∧ (∀ (w : World) (s : State) (u : URL),
        (resolve cfg w).1 = ipv4 → (resolve cfg w).2 = ipv6 →
        Event.get u ∈ (iteration cfg lib w s).2 →
        u.RawQuery = lib.Encode (requestQuery cfg lib ipv4 ipv6)) := by
  refine ⟨requestQuery_apply cfg lib ipv4 ipv6, ?_, ?_⟩
  · intro h6 k
    rw [requestQuery_apply, h6]
    simp
  · intro w s u h4 h6 hu
    rw [iteration_get cfg lib w s u hu, ← h4, ← h6]
    rfl

/-- The passes of the loop, one by one: the pass number `i` starts from some state and
is made in the world number `i`. -/
theorem loop_get (cfg : Config) (lib : Lib) (worlds : List World) (s : State) (i : Nat)
    (out : State × List Event) (h : (loop cfg lib worlds s)[i]? = some out) :
    ∃ w s0, worlds[i]? = some w ∧ out = iteration cfg lib w s0 := by
  induction worlds generalizing s i with
  | nil => simp [loop] at h
  | cons w ws ih =>
    cases i with
    | zero =>
      simp only [loop, List.getElem?_cons_zero, Option.some.injEq] at h
      exact ⟨w, s, by simp, h.symm⟩
    | succ i =>
      simp only [loop, List.getElem?_cons_succ] at h
      obtain ⟨w2, s0, hw, hout⟩ := ih _ i h
      exact ⟨w2, s0, by simpa using hw, hout⟩

/-- C10: the query of each request is built from the query of the url as it was at
startup. Whatever the passes before it did, a request of the pass number `i` carries
the encoding of a query that depends only on the original raw query, the two parameter
names and the pair resolved in that pass; under each key that query holds the original
values and at most one added value for each family. -/
theorem loop_request_query (cfg : Config) (lib : Lib) (worlds : List World) (s : State)
    (i : Nat) (out : State × List Event) (u : URL)
    (hout : (loop cfg lib worlds s)[i]? = some out) (hu : Event.get u ∈ out.2) :
    ∃ w, worlds[i]? = some w
      ∧ u.RawQuery = lib.Encode (requestQuery cfg lib (resolve cfg w).1 (resolve cfg w).2)
      ∧ ∀ k : String,
          (requestQuery cfg lib (resolve cfg w).1 (resolve cfg w).2 k).length
            = (lib.ParseQuery cfg.originalRawQuery k).length
              + (if k = cfg.ipv4param ∧ cfg.ipv4param ≠ "" ∧ (resolve cfg w).1 ≠ none
                  then 1 else 0)
              + (if k = cfg.ipv6param ∧ cfg.ipv6param ≠ "" ∧ (resolve cfg w).2 ≠ none
                  then 1 else 0) := by
  obtain ⟨w, s0, hw, hit⟩ := loop_get cfg lib worlds s i out hout
  refine ⟨w, hw, ?_, ?_⟩
  · rw [hit] at hu
    rw [iteration_get cfg lib w s0 u hu]
    rfl
  · intro k
    rw [requestQuery_apply]
    simp only [List.length_append]
    split_ifs <;> rfl

/-- A pass sends a request exactly when the condition of line 68 holds and the host is
not empty. -/
theorem sentRequest_iff (cfg : Config) (lib : Lib) (w : World) (s : State) :
    sentRequest (iteration cfg lib w s).2 = true ↔ RequestSent cfg w s := by
  rcases iteration_cases cfg lib w s with
    ⟨hns, hev, _, _, _⟩ | ⟨hs, _, hit⟩ | ⟨hs, _, hit⟩ | ⟨hs, _, hit⟩
  · rw [hev]
    simp [sentRequest, hns]
  all_goals
    rw [hit]
    simp [sentRequest, hs]

/-- C8, as amended: of two consecutive passes that resolve the same pair, the second sends a
request exactly when the first sent one that was not answered with status 200 (an
error of the transport, or another status): the request is then made again. If the
first pass sent no request, or its request was answered with status 200, the second
pass sends none. -/
theorem second_pass_request (cfg : Config) (lib : Lib) (w1 w2 : World) (s : State)
    (hsame : resolve cfg w1 = resolve cfg w2) :
    sentRequest (iteration cfg lib w2 (iteration cfg lib w1 s).1).2 = true
      ↔ (RequestSent cfg w1 s ∧ ¬ Acknowledged w1 (requestURL cfg lib w1 s)) := by
  rw [sentRequest_iff]
  rcases iteration_cases cfg lib w1 s with
    ⟨hns, _, h4, h6, hhost⟩ | ⟨hs, ⟨e, he⟩, hit⟩ | ⟨hs, hrej, hit⟩
      | ⟨hs, hack, hit⟩
  · constructor
    · intro h
      refine absurd ?_ hns
      unfold RequestSent at h ⊢
      rw [h4, h6, hhost, ← hsame] at h
      exact h
    · intro h
      exact absurd h.1 hns
  · constructor
    · intro _
      exact ⟨hs, (not_answered_of_error w1 _ e he).2⟩
    · intro _
      rw [hit]
      unfold RequestSent at hs ⊢
      rw [← hsame]
      exact hs
  · constructor
    · intro _
      exact ⟨hs, fun hack => not_rejected_of_acknowledged w1 _ hack hrej⟩
    · intro _
      rw [hit]
      unfold RequestSent at hs ⊢
      rw [← hsame]
      exact hs
  · constructor
    · intro h
      rw [hit] at h
      unfold RequestSent at h
      rw [← hsame] at h
      simp [shouldNotify, equal_self] at h
    · intro h
      exact absurd hack h.2

/-- C9, as amended: a change in one family alone makes the pass notify, provided something was
resolved. When the resolved pair is not absent in both slots and exactly one of its
slots is not equal to the submitted value of that family, the condition of line 68
holds; the pass then assigns the url of the request and, if the host is not empty,
sends the request. -/
theorem shouldNotify_one_family (newV4 newV6 subV4 subV6 : IP)
    (hresolved : ¬(newV4 = none ∧ newV6 = none))
    (hchange : (newV4.Equal subV4 = false ∧ newV6.Equal subV6 = true)
      ∨ (newV4.Equal subV4 = true ∧ newV6.Equal subV6 = false)) :
    shouldNotify newV4 newV6 subV4 subV6 = true
    ∧ ∀ (cfg : Config) (lib : Lib) (w : World) (s : State),
        resolve cfg w = (newV4, newV6) →
        s.submittedIPv4 = subV4 → s.submittedIPv6 = subV6 →
        (iteration cfg lib w s).1.hookURL = requestURL cfg lib w s
        ∧ (s.hookURL.Host ≠ "" →
            Event.get (requestURL cfg lib w s) ∈ (iteration cfg lib w s).2) := by
  have hnotify : shouldNotify newV4 newV6 subV4 subV6 = true := by
    have hor : ¬newV4 = none ∨ ¬newV6 = none := not_and_or.mp hresolved
    rcases hchange with ⟨h4, h6⟩ | ⟨h4, h6⟩
    · simp only [shouldNotify, h4, h6]
      simpa using hor
    · simp only [shouldNotify, h4, h6]
      simpa using hor
  refine ⟨hnotify, ?_⟩
  intro cfg lib w s hres hs4 hs6
  have hcond : shouldNotify (resolve cfg w).1 (resolve cfg w).2 s.submittedIPv4
      s.submittedIPv6 = true := by
    rw [hres, hs4, hs6]
    exact hnotify
  rcases iteration_cases cfg lib w s with
    ⟨hns, _, _, _, _⟩ | ⟨_, _, hit⟩ | ⟨_, _, hit⟩ | ⟨_, _, hit⟩
  · by_cases hhost : s.hookURL.Host = ""
    · rw [iteration_no_host cfg lib w s hcond hhost]
      exact ⟨rfl, fun h => absurd hhost h⟩
    · exact absurd ⟨hcond, hhost⟩ hns
  all_goals
    rw [hit]
    exact ⟨rfl, fun _ => by simp⟩

/-! ## The theorems on the example host -/

/-- C1, counterexample to the claim as first stated: one default route, but the lookup
of its link fails; `getAddress` returns the error of the lookup and lists no
addresses. -/
theorem getAddress_link_lookup_fails :
    [({ Dst := none, LinkIndex := 2 } : Route),
        { Dst := some ([203, 0, 113, 0], 24), LinkIndex := 2 }].countP
        (fun r => r.Dst.isNone) = 1
    ∧ exNetlinkLinkGone.RouteList none FAMILY_V4
      = .ok [{ Dst := none, LinkIndex := 2 },
          { Dst := some ([203, 0, 113, 0], 24), LinkIndex := 2 }]
    ∧ getAddress exNetlinkLinkGone none FAMILY_V4
      = ((none, some (Err.netlink "Link not found")),
          [Call.RouteList none FAMILY_V4, Call.LinkByIndex 2]) :=
  ⟨by decide, rfl, by decide⟩

/-- C1 on the example host: one default route through link 2, whose addresses are
then listed. -/
theorem getAddress_default_routes_witness :
    getAddress exNetlink none FAMILY_V4
      = ((getAddress.fromLink exNetlink { Index := 2 } FAMILY_V4).1,
          [Call.RouteList none FAMILY_V4, Call.LinkByIndex 2,
            Call.AddrList { Index := 2 } FAMILY_V4]) := by
  obtain ⟨r, hr, _, hok⟩ :=
    (getAddress_default_routes exNetlink FAMILY_V4
      [{ Dst := none, LinkIndex := 2 },
        { Dst := some ([203, 0, 113, 0], 24), LinkIndex := 2 }]
      rfl).2.1 (by decide)
  have hr2 : [({ Dst := none, LinkIndex := 2 } : Route)] = [r] := hr
  injection hr2 with hr2 _
  subst hr2
  exact hok { Index := 2 } rfl

/-- C2 on the example host: of the three addresses of link 2 only 203.0.113.5
qualifies, and it is what `getAddress` returns. -/
theorem getAddress_qualifying_witness :
    (getAddress exNetlink none FAMILY_V4).1 = (some [203, 0, 113, 5], none) :=
  (getAddress_qualifying exNetlink none FAMILY_V4 { Index := 2 }
    [{ IP := some [203, 0, 113, 5], Scope := 0, Flags := 0 },
      { IP := some [192, 168, 1, 7], Scope := 0, Flags := 0 },
      { IP := some [198, 51, 100, 9], Scope := 0, Flags := 1 }]
    (Or.inr ⟨rfl, _, { Dst := none, LinkIndex := 2 }, rfl, by decide, rfl⟩) rfl).2.1
    { IP := some [203, 0, 113, 5], Scope := 0, Flags := 0 } (by decide)

/-- C3 with nothing submitted yet and an IPv4 address resolved: the condition
holds. -/
theorem shouldNotify_iff_witness :
    shouldNotify (some [203, 0, 113, 5]) none none none = true :=
  (shouldNotify_iff (some [203, 0, 113, 5]) none none none).1.mpr
    ⟨by decide, by decide⟩

/-- C4 with the IPv6 slot absent. -/
theorem shouldNotify_self_witness :
    shouldNotify (some [203, 0, 113, 5]) none (some [203, 0, 113, 5]) none = false :=
  shouldNotify_self (some [203, 0, 113, 5]) none (by decide)

/-- C5 on the example host, the request answered with status 200: the resolved pair
is submitted. -/
theorem iteration_submitted_witness :
    ((iteration exConfig exLib (exWorld (.ok ⟨200, "good"⟩))
        (initialState exURL)).1.submittedIPv4,
      (iteration exConfig exLib (exWorld (.ok ⟨200, "good"⟩))
        (initialState exURL)).1.submittedIPv6)
      = (some [203, 0, 113, 5], none) :=
  (iteration_submitted exConfig exLib (exWorld (.ok ⟨200, "good"⟩)) (initialState exURL)).1
    ⟨⟨by decide, by decide⟩, ⟨⟨200, "good"⟩, rfl, rfl⟩⟩

/-- C6 on the example host, the request answered with status 500: the one sleep of the
pass is the error interval. -/
theorem iteration_sleeps_witness :
    sleeps (iteration exConfig exLib (exWorld (.ok ⟨500, ""⟩)) (initialState exURL)).2
      = [exConfig.errorInterval] :=
  ((iteration_sleeps exConfig exLib (exWorld (.ok ⟨500, ""⟩)) (initialState exURL)).1
    ⟨⟨by decide, by decide⟩, ⟨⟨500, ""⟩, rfl, by decide⟩⟩).1

/-- C7 on the example host: IPv4 resolved, IPv6 absent; under the IPv4 name the query
holds the text of the address, and under the IPv6 name nothing. -/
theorem requestQuery_values_witness :
    requestQuery exConfig exLib (some [203, 0, 113, 5]) none "myip" = ["203.0.113.5"]
    ∧ requestQuery exConfig exLib (some [203, 0, 113, 5]) none "myipv6" = [] :=
  ⟨((requestQuery_values exConfig exLib (some [203, 0, 113, 5]) none).2.1 rfl "myip").trans
      (by decide),
    ((requestQuery_values exConfig exLib (some [203, 0, 113, 5]) none).2.1 rfl "myipv6").trans
      (by decide)⟩

/-- C8, counterexample to the claim as first stated: two consecutive passes resolve the
same pair, the request of the first is answered with status 500, and the second pass
sends the request again. -/
theorem second_pass_sends_again :
    resolve exConfig (exWorld (.ok ⟨500, ""⟩)) = (some [203, 0, 113, 5], none)
    ∧ (iteration exConfig exLib (exWorld (.ok ⟨500, ""⟩)) (initialState exURL)).2
      = [Event.get { exURL with RawQuery := "test.example.com&203.0.113.5&" },
          Event.sleep 300000000000]
    ∧ (iteration exConfig exLib (exWorld (.ok ⟨500, ""⟩))
        (iteration exConfig exLib (exWorld (.ok ⟨500, ""⟩)) (initialState exURL)).1).2
      = [Event.get { exURL with RawQuery := "test.example.com&203.0.113.5&" },
          Event.sleep 300000000000] := by
  decide

/-- C8 on the example host, the first request answered with status 200: the second
pass sends no request. -/
theorem second_pass_request_witness :
    sentRequest (iteration exConfig exLib (exWorld (.ok ⟨200, "good"⟩))
      (iteration exConfig exLib (exWorld (.ok ⟨200, "good"⟩)) (initialState exURL)).1).2
      = false := by
  have h := second_pass_request exConfig exLib (exWorld (.ok ⟨200, "good"⟩))
    (exWorld (.ok ⟨200, "good"⟩)) (initialState exURL) rfl
  have hack : Acknowledged (exWorld (.ok ⟨200, "good"⟩))
      (requestURL exConfig exLib (exWorld (.ok ⟨200, "good"⟩)) (initialState exURL)) :=
    ⟨⟨200, "good"⟩, rfl, rfl⟩
  cases hsent : sentRequest (iteration exConfig exLib (exWorld (.ok ⟨200, "good"⟩))
      (iteration exConfig exLib (exWorld (.ok ⟨200, "good"⟩)) (initialState exURL)).1).2
  · rfl
  · exact absurd hack (h.mp hsent).2

/-- C9, counterexample to the claim as first stated: 203.0.113.5 was submitted for IPv4
and nothing for IPv6; then nothing resolves for either family. The IPv4 value differs
from the submitted one and the IPv6 value equals it, yet the condition of line 68 is
false and the pass only sleeps. -/
theorem no_notification_when_nothing_resolves :
    IP.Equal none (some [203, 0, 113, 5]) = false
    ∧ IP.Equal none none = true
    ∧ shouldNotify none none (some [203, 0, 113, 5]) none = false
    ∧ resolve exConfig { nl := exNetlinkDown, Get := fun _ => .ok ⟨200, "good"⟩ }
      = (none, none)
    ∧ iteration exConfig exLib { nl := exNetlinkDown, Get := fun _ => .ok ⟨200, "good"⟩ }
        { submittedIPv4 := some [203, 0, 113, 5], submittedIPv6 := none, hookURL := exURL }
      = ({ submittedIPv4 := some [203, 0, 113, 5], submittedIPv6 := none, hookURL := exURL },
          [Event.sleep 5000000000]) := by
  decide

/-- C9 with an IPv4 address resolved for the first time and IPv6 absent as before. -/
theorem shouldNotify_one_family_witness :
    shouldNotify (some [203, 0, 113, 5]) none none none = true :=
  (shouldNotify_one_family (some [203, 0, 113, 5]) none none none (by decide)
    (Or.inl ⟨by decide, by decide⟩)).1

/-- C10 on the example host: the request of the second of two passes, the first
rejected, carries the query built from the original one, with one IPv4 value. -/
theorem loop_request_query_witness :
    ∃ w, [exWorld (.ok ⟨500, ""⟩), exWorld (.ok ⟨200, "good"⟩)][1]? = some w
      ∧ "test.example.com&203.0.113.5&"
        = exLib.Encode (requestQuery exConfig exLib (resolve exConfig w).1 (resolve exConfig w).2)
      ∧ ∀ k : String,
          (requestQuery exConfig exLib (resolve exConfig w).1 (resolve exConfig w).2 k).length
            = (exLib.ParseQuery exConfig.originalRawQuery k).length
              + (if k = exConfig.ipv4param ∧ exConfig.ipv4param ≠ ""
                    ∧ (resolve exConfig w).1 ≠ none then 1 else 0)
              + (if k = exConfig.ipv6param ∧ exConfig.ipv6param ≠ ""
                    ∧ (resolve exConfig w).2 ≠ none then 1 else 0) :=
  loop_request_query exConfig exLib [exWorld (.ok ⟨500, ""⟩), exWorld (.ok ⟨200, "good"⟩)]
    (initialState exURL) 1
    (iteration exConfig exLib (exWorld (.ok ⟨200, "good"⟩))
      (iteration exConfig exLib (exWorld (.ok ⟨500, ""⟩)) (initialState exURL)).1)
    { exURL with RawQuery := "test.example.com&203.0.113.5&" } rfl (by decide)

end IPHook
